import Mathlib

/-!
Shallow embedding of the Woodlands Market demo-booking server
(`src/server.js`, and the extended variant with the admin API).

Modelling conventions:
* JavaScript strings are `List Char` (`Str`); `undefined` values are `Option`.
* Dollar amounts accumulated as floats in the source hold exact multiples of
  one cent here, so they are modelled as exact `Nat` cent (or whole-dollar)
  values.
* `JSON.stringify`/`JSON.parse` are modelled on the sublanguage the server
  actually stores: arrays of four-string-field slot objects.  Parse failure
  (`none`) models a thrown `SyntaxError`.
* The server's local timezone enters through `Date` getters; it is modelled
  as an explicit offset parameter `tz` in seconds.
-/

namespace Woodlands

abbrev Str := List Char

def strL (s : String) : Str := s.toList

/-- JavaScript truthiness of a possibly-`undefined` string: present and
nonempty. -/
def truthy : Option Str → Bool
  | some (_ :: _) => true
  | _ => false

/-! ### Decimal rendering and `parseInt` -/

def digitChar : Nat → Char
  | 0 => '0' | 1 => '1' | 2 => '2' | 3 => '3' | 4 => '4'
  | 5 => '5' | 6 => '6' | 7 => '7' | 8 => '8' | 9 => '9'
  | _ => '*'

/-- Little-endian base-10 digits, via structural fuel so that the kernel can
evaluate it (fuel `n` always suffices). -/
def natDigitsAux : Nat → Nat → List Nat
  | 0, _ => []
  | _ + 1, 0 => []
  | fuel + 1, n + 1 => ((n + 1) % 10) :: natDigitsAux fuel ((n + 1) / 10)

def natDigits (n : Nat) : List Nat := natDigitsAux n n

/-- Decimal rendering of a natural number, modelling `String(n)`. -/
def natStr (n : Nat) : Str :=
  if n = 0 then ['0'] else ((natDigits n).map digitChar).reverse

/-- Decimal rendering of an integer, modelling `String(z)` for integral
values. -/
def intStr (z : Int) : Str :=
  if z < 0 then '-' :: natStr z.natAbs else natStr z.toNat

def isDigitCh (c : Char) : Bool := decide ('0' ≤ c) && decide (c ≤ '9')

def digitsVal (ds : Str) : Nat := ds.foldl (fun a c => a * 10 + (c.toNat - 48)) 0

/-- Value of the longest leading digit run; `none` when there is none. -/
def digitsPrefixVal (s : Str) : Option Nat :=
  match s.takeWhile isDigitCh with
  | [] => none
  | ds => some (digitsVal ds)

/-- `parseInt` on the decimal strings this server produces: an optional sign
followed by decimal digits; `none` models `NaN`. -/
def jsParseIntVal (s : Str) : Option Int :=
  match s with
  | [] => none
  | c :: r =>
    if c = '-' then (digitsPrefixVal r).map (fun n => -(n : Int))
    else if c = '+' then (digitsPrefixVal r).map (fun n => (n : Int))
    else (digitsPrefixVal (c :: r)).map (fun n => (n : Int))

/-- Number of iterations of `for (let i = 0; i < parseInt(v); i++)`:
zero when `parseInt` yields `NaN` or a non-positive value. -/
def jsIter (v : Str) : Nat :=
  match jsParseIntVal v with
  | some z => z.toNat
  | none => 0

/-! ### Slots and the booking JSON codec -/

/-- A booking slot reduced to the four serialized fields — the `slim`
projection built in `create-checkout-session`. -/
structure Slot where
  date : Str
  time : Str
  location : Str
  displayDate : Str
deriving DecidableEq

def hexDigit : Nat → Char
  | 0 => '0' | 1 => '1' | 2 => '2' | 3 => '3' | 4 => '4'
  | 5 => '5' | 6 => '6' | 7 => '7' | 8 => '8' | 9 => '9'
  | 10 => 'a' | 11 => 'b' | 12 => 'c' | 13 => 'd' | 14 => 'e' | 15 => 'f'
  | _ => '*'

/-- `JSON.stringify` escaping of one character inside a string literal. -/
def escChar (c : Char) : Str :=
  if c = '"' then ['\\', '"']
  else if c = '\\' then ['\\', '\\']
  else if c = '\n' then ['\\', 'n']
  else if c = '\r' then ['\\', 'r']
  else if c = '\t' then ['\\', 't']
  else if c = '\x08' then ['\\', 'b']
  else if c = '\x0c' then ['\\', 'f']
  else if c.toNat < 32 then ['\\', 'u', '0', '0', hexDigit (c.toNat / 16), hexDigit (c.toNat % 16)]
  else [c]

def escape : Str → Str
  | [] => []
  | c :: s => escChar c ++ escape s

/-- `\x7b"date":"` — the opening of a serialized slot object. -/
def keyDate : Str := ['\x7b', '"', 'd', 'a', 't', 'e', '"', ':', '"']
/-- `,"time":"` -/
def keyTime : Str := [',', '"', 't', 'i', 'm', 'e', '"', ':', '"']
/-- `,"location":"` -/
def keyLocation : Str := [',', '"', 'l', 'o', 'c', 'a', 't', 'i', 'o', 'n', '"', ':', '"']
/-- `,"displayDate":"` -/
def keyDisplayDate : Str :=
  [',', '"', 'd', 'i', 's', 'p', 'l', 'a', 'y', 'D', 'a', 't', 'e', '"', ':', '"']

/-- `JSON.stringify` of one slim slot object (the four fields in insertion
order, each value an escaped string literal; the closing quote of each value
is written before the next key fragment). -/
def serializeSlot (b : Slot) : Str :=
  keyDate ++ escape b.date ++ ['"'] ++ keyTime ++ escape b.time ++ ['"']
    ++ keyLocation ++ escape b.location ++ ['"']
    ++ keyDisplayDate ++ escape b.displayDate ++ ['"', '\x7d']

/-- The `,`-separated tail of a serialized slot array. -/
def tailSer : List Slot → Str
  | [] => []
  | b :: xs => ',' :: serializeSlot b ++ tailSer xs

/-- `JSON.stringify(slim)` — the serialized bookings blob. -/
def serializeSlots (l : List Slot) : Str :=
  match l with
  | [] => ['[', ']']
  | x :: xs => '[' :: (serializeSlot x ++ tailSer xs ++ [']'])

def consRes (c : Char) : Option (Str × Str) → Option (Str × Str)
  | some (s, r) => some (c :: s, r)
  | none => none

def hexVal (c : Char) : Option Nat :=
  if '0' ≤ c ∧ c ≤ '9' then some (c.toNat - 48)
  else if 'a' ≤ c ∧ c ≤ 'f' then some (c.toNat - 87)
  else if 'A' ≤ c ∧ c ≤ 'F' then some (c.toNat - 55)
  else none

/-- Parse the body of a JSON string literal (after the opening quote) up to
and including the closing quote, decoding escapes; returns the decoded
characters and the rest of the input. -/
def parseStringBody : Str → Option (Str × Str)
  | [] => none
  | c :: r =>
    if c = '"' then some ([], r)
    else if c = '\\' then
      match r with
      | [] => none
      | e :: r2 =>
        if e = '"' then consRes '"' (parseStringBody r2)
        else if e = '\\' then consRes '\\' (parseStringBody r2)
        else if e = '/' then consRes '/' (parseStringBody r2)
        else if e = 'n' then consRes '\n' (parseStringBody r2)
        else if e = 'r' then consRes '\r' (parseStringBody r2)
        else if e = 't' then consRes '\t' (parseStringBody r2)
        else if e = 'b' then consRes '\x08' (parseStringBody r2)
        else if e = 'f' then consRes '\x0c' (parseStringBody r2)
        else if e = 'u' then
          match r2 with
          | h1 :: h2 :: h3 :: h4 :: r3 =>
            match hexVal h1, hexVal h2, hexVal h3, hexVal h4 with
            | some a, some b2, some c2, some d2 =>
              consRes (Char.ofNat (((a * 16 + b2) * 16 + c2) * 16 + d2)) (parseStringBody r3)
            | _, _, _, _ => none
          | _ => none
        else none
    else if c.toNat < 32 then none
    else consRes c (parseStringBody r)

/-- Consume an expected literal fragment. -/
def parseExact : Str → Str → Option Str
  | [], s => some s
  | _ :: _, [] => none
  | p :: ps, c :: cs => if c = p then parseExact ps cs else none

/-- Parse one serialized slot object. -/
def parseSlotRecord (s : Str) : Option (Slot × Str) := do
  let r1 ← parseExact keyDate s
  let (d, r2) ← parseStringBody r1
  let r3 ← parseExact keyTime r2
  let (t, r4) ← parseStringBody r3
  let r5 ← parseExact keyLocation r4
  let (lo, r6) ← parseStringBody r5
  let r7 ← parseExact keyDisplayDate r6
  let (dd, r8) ← parseStringBody r7
  let r9 ← parseExact ['\x7d'] r8
  pure ({ date := d, time := t, location := lo, displayDate := dd }, r9)

/-- Parse the remaining `,`-separated slots and the closing bracket.  The
fuel argument only bounds recursion; any fuel at least the number of
remaining slots suffices. -/
def parseMoreSlots : Nat → Str → Option (List Slot × Str)
  | _, ']' :: r => some ([], r)
  | fuel + 1, ',' :: r =>
    match parseSlotRecord r with
    | some (b, r2) =>
      match parseMoreSlots fuel r2 with
      | some (l, r3) => some (b :: l, r3)
      | none => none
    | none => none
  | _, _ => none

/-- `JSON.parse` on the sublanguage `JSON.stringify` produces for slim slot
arrays; `none` models a parse failure (a thrown `SyntaxError`). -/
def jsonParseSlots (s : Str) : Option (List Slot) :=
  match s with
  | '[' :: ']' :: r2 => if r2 = [] then some [] else none
  | '[' :: r =>
    match parseSlotRecord r with
    | some (b, r2) =>
      match parseMoreSlots r2.length r2 with
      | some (l, r3) => if r3 = [] then some (b :: l) else none
      | none => none
    | none => none
  | _ => none

/-! ### Metadata and the chunking encoder -/

/-- Keys of the flat string-keyed session metadata object.  The JavaScript
keys `customerName`, `company`, `product`, `phone`, `bookings`,
`bookings_chunks` and `bookings_<i>` are pairwise-distinct strings, modelled
by distinct constructors. -/
inductive MetaKey where
  | customerName | company | product | phone
  | bookings | chunks | idx (i : Nat)
deriving DecidableEq

/-- A JavaScript object as an insertion-ordered association list. -/
abbrev Metadata := List (MetaKey × Str)

def alookup {κ β : Type} [DecidableEq κ] (k : κ) : List (κ × β) → Option β
  | [] => none
  | (k2, v) :: t => if k2 = k then some v else alookup k t

/-- `object[k] = v` on an insertion-ordered association list: overwrite in
place, or append a new entry. -/
def aset {κ β : Type} [DecidableEq κ] (k : κ) (v : β) : List (κ × β) → List (κ × β)
  | [] => [(k, v)]
  | (k2, v2) :: t => if k2 = k then (k, v) :: t else (k2, v2) :: aset k v t

/-- `Math.ceil(len / 500)`. -/
def chunkCount (len : Nat) : Nat := (len + 499) / 500

/-- The chunked `bookings_<j>` entries written by the encoder loop: key
`bookings_<j>` holds `bookingsStr.slice(j*500, j*500 + 500)`, for each
`j` with `j*500 < bookingsStr.length`. -/
def chunkEntriesFrom (blob : Str) (k : Nat) : Metadata :=
  (List.range k).map (fun j => (MetaKey.idx j, (blob.drop (j * 500)).take 500))

/-- The bookings-related metadata entries written by
`create-checkout-session`: the blob under the single key `bookings` when it
fits in 500 characters, otherwise indexed chunks plus the `bookings_chunks`
count. -/
def bookingsEntries (blob : Str) : Metadata :=
  if blob.length ≤ 500 then [(MetaKey.bookings, blob)]
  else chunkEntriesFrom blob (chunkCount blob.length)
        ++ [(MetaKey.chunks, natStr (chunkCount blob.length))]

/-- The full `metadata` object built in `create-checkout-session`. -/
def checkoutMetadata (customerName company product phone : Str) (cart : List Slot) : Metadata :=
  [(MetaKey.customerName, customerName), (MetaKey.company, company),
   (MetaKey.product, product), (MetaKey.phone, phone)]
  ++ bookingsEntries (serializeSlots cart)

/-- Chunk reassembly `bookingsStr += metadata[bookings_i] || ''` for
`i = 0 .. k-1`. -/
def reassembleChunks (m : Metadata) (k : Nat) : Str :=
  (List.range k).foldl (fun acc i => acc ++ (alookup (MetaKey.idx i) m).getD []) []

/-- The `bookingsStr` selected by `extractBookings`: the singular `bookings`
value when truthy, else the reassembled chunks when `bookings_chunks` is
truthy, else `undefined` (`none`). -/
def extractBookingsStr (m : Metadata) : Option Str :=
  if truthy (alookup MetaKey.bookings m) then alookup MetaKey.bookings m
  else if truthy (alookup MetaKey.chunks m) then
    some (reassembleChunks m (jsIter ((alookup MetaKey.chunks m).getD [])))
  else none

/-- `extractBookings`: decode a session's booking metadata, degrading to
`[]` on a missing/falsy payload or a parse failure (its `try/catch`). -/
def extractBookings (m : Metadata) : List Slot :=
  match extractBookingsStr m with
  | some s => if s = [] then [] else (jsonParseSlots s).getD []
  | none => []

/-- The `bookingsStr` reassembled inside `GET /api/verify-payment`: unlike
`extractBookings` there is no truthiness guard on `bookings_chunks` (a
missing sentinel means `parseInt('0')`) and no `try/catch`. -/
def verifyBookingsStr (m : Metadata) : Str :=
  if truthy (alookup MetaKey.bookings m) then (alookup MetaKey.bookings m).getD []
  else
    let cv := match alookup MetaKey.chunks m with
      | some s => if s = [] then strL "0" else s
      | none => strL "0"
    reassembleChunks m (jsIter cv)

/-! ### Sessions, verify-payment, refunds, auth -/

structure Charge where
  refunded : Bool
  amount_refunded : Nat
deriving DecidableEq

structure PaymentIntentObj where
  id : Str
  charges : Option (List Charge)
deriving DecidableEq

/-- `session.payment_intent` may be an expanded object or a bare id
string. -/
inductive PIRef where
  | strRef (id : Str)
  | obj (pi : PaymentIntentObj)
deriving DecidableEq

structure StripeSession where
  id : Str
  payment_status : Str
  customer_email : Str
  amount_total : Nat
  created : Nat
  payment_intent : Option PIRef
  metadata : Metadata
deriving DecidableEq

inductive VerifyResp where
  /-- `res.json({success:true, ...})` with the decoded bookings. -/
  | ok (bookings : List Slot)
  /-- HTTP 400 `Payment not completed`. -/
  | notCompleted
  /-- HTTP 500 via the route's `catch`. -/
  | serverError
deriving DecidableEq

/-- `GET /api/verify-payment/:sessionId`, given the retrieved session:
the HTTP outcome together with the number of confirmation-email sends
invoked on that execution path. -/
def verifyPayment (s : StripeSession) : VerifyResp × Nat :=
  if s.payment_status = strL "paid" then
    match jsonParseSlots (verifyBookingsStr s.metadata) with
    | some bookings => (VerifyResp.ok bookings, 1)
    | none => (VerifyResp.serverError, 0)
  else (VerifyResp.notCompleted, 0)

/-- `charges && charges[0]?.refunded`. -/
def firstChargeRefunded (charges : Option (List Charge)) : Bool :=
  match charges with
  | some cl =>
    match cl.head? with
    | some c => c.refunded
    | none => false
  | none => false

/-- `session.payment_intent?.charges?.data` (a bare id string has no
`charges`). -/
def chargesOf : PIRef → Option (List Charge)
  | PIRef.obj pi => pi.charges
  | PIRef.strRef _ => none

/-- `s.payment_intent?.charges?.data?.[0]?.refunded || false`. -/
def refundedOf (s : StripeSession) : Bool :=
  match s.payment_intent with
  | some pi => firstChargeRefunded (chargesOf pi)
  | none => false

inductive RefundResp where
  /-- HTTP 400 `No payment intent found for this session`. -/
  | noPaymentIntent
  /-- HTTP 400 `This booking has already been refunded`. -/
  | alreadyRefunded
  /-- Success path: a refund was created. -/
  | refunded
deriving DecidableEq

/-- `POST /api/admin/bookings/:sessionId/refund`, given the retrieved
session: the outcome together with the number of `stripe.refunds.create`
calls made. -/
def refundRoute (s : StripeSession) : RefundResp × Nat :=
  match s.payment_intent with
  | none => (RefundResp.noPaymentIntent, 0)
  | some pi =>
    if firstChargeRefunded (chargesOf pi) then (RefundResp.alreadyRefunded, 0)
    else (RefundResp.refunded, 1)

inductive AuthResp where
  /-- `res.json({success:true})`. -/
  | ok
  /-- HTTP 401. -/
  | unauthorized
  /-- HTTP 500 `ADMIN_PASSWORD not configured`. -/
  | serverError
deriving DecidableEq

/-- The `adminAuth` middleware.  `env` is `process.env.ADMIN_PASSWORD`
(`none` = unset); `password` is the resolved header/query value (`none` =
absent).  `none` result means the request proceeds (`next()`); `some r` is
an early response. -/
def adminAuth (env : Option Str) (password : Option Str) : Option AuthResp :=
  if truthy env = false then some AuthResp.serverError
  else if password ≠ env then some AuthResp.unauthorized
  else none

/-- `POST /api/admin/auth`: compares `req.body.password` to
`process.env.ADMIN_PASSWORD` with `===` and performs no configuration
check. -/
def adminAuthRoute (env : Option Str) (password : Option Str) : AuthResp :=
  if password = env then AuthResp.ok else AuthResp.unauthorized

/-! ### Checkout line items -/

structure LineItem where
  name : Str
  description : Str
  unit_amount : Nat
  quantity : Nat
deriving DecidableEq

/-- `cart.map(item => ...)` in `create-checkout-session`. -/
def lineItems (cart : List Slot) : List LineItem :=
  cart.map (fun item =>
    { name := strL "Demo at Woodlands Market - " ++ item.location
      description := item.displayDate ++ strL " • " ++ item.time
      unit_amount := 3000
      quantity := 1 })

/-- The amount the payment processor charges for the session: the sum of
`unit_amount × quantity` over the line items, in minor units. -/
def totalCharged (cart : List Slot) : Nat :=
  ((lineItems cart).map (fun li => li.unit_amount * li.quantity)).sum

/-! ### Calendar export hour fields -/

def hasSub (needle hay : Str) : Bool :=
  hay.tails.any (fun t => needle.isPrefixOf t)

/-- The 24-hour start hour computed by `generateICS` from `item.time`:
`parseInt` of the text before the first colon, then the two sequential
AM/PM adjustments; `none` models `NaN`. -/
def hours24 (time : Str) : Option Int :=
  match jsParseIntVal (time.takeWhile (fun c => c != ':')) with
  | none => none
  | some h =>
    let isPM := hasSub (strL "PM") time
    let h2 := if isPM && !(h == 12) then h + 12 else h
    let h3 := if !isPM && (h2 == 12) then 0 else h2
    some h3

def padStart2 (s : Str) : Str :=
  if s.length < 2 then List.replicate (2 - s.length) '0' ++ s else s

/-- The `startHour` template field: `String(hours).padStart(2, '0')`. -/
def icsStartHour (time : Str) : Str :=
  match hours24 time with
  | some h => padStart2 (intStr h)
  | none => strL "NaN"

/-- The `endHour` template field: `String(hours + 3).padStart(2, '0')` —
a fixed 3-hour add with no 24-hour wraparound. -/
def icsEndHour (time : Str) : Str :=
  match hours24 time with
  | some h => padStart2 (intStr (h + 3))
  | none => strL "NaN"

/-! ### Admin analytics -/

/-- Howard Hinnant's civil-from-days: days since the Unix epoch to
(year, month `1..12`, day) in the proleptic Gregorian calendar, modelling
the `Date` getters. -/
def civilFromDays (z0 : Int) : Int × Nat × Nat :=
  let z := z0 + 719468
  let era := Int.fdiv z 146097
  let doe := (z - era * 146097).toNat
  let yoe := (doe - doe / 1460 + doe / 36524 - doe / 146096) / 365
  let y0 := (yoe : Int) + era * 400
  let doy := doe - (365 * yoe + yoe / 4 - yoe / 100)
  let mp := (5 * doy + 2) / 153
  let d := doy - (153 * mp + 2) / 5 + 1
  let m := if mp < 10 then mp + 3 else mp - 9
  (if m ≤ 2 then y0 + 1 else y0, m, d)

/-- Inverse of `civilFromDays`. -/
def daysFromCivil (y : Int) (m d : Nat) : Int :=
  let y2 := if m ≤ 2 then y - 1 else y
  let era := Int.fdiv y2 400
  let yoe := (y2 - era * 400).toNat
  let mp := (m + 9) % 12
  let doy := (153 * mp + 2) / 5 + d - 1
  let doe := yoe * 365 + yoe / 4 - yoe / 100 + doy
  era * 146097 + (doe : Int) - 719468

/-- `Date.prototype.getDay` (0 = Sunday) of a days-since-epoch value. -/
def dayOfWeekOfDays (z : Int) : Nat := (Int.emod (z + 4) 7).toNat

/-- Local `getFullYear() + '-' + String(getMonth()+1).padStart(2,'0')` of an
epoch-seconds timestamp, with the server timezone as offset `tz` seconds. -/
def monthKeyOf (tz : Int) (epochSec : Nat) : Str :=
  let c := civilFromDays (Int.fdiv ((epochSec : Int) + tz) 86400)
  intStr c.1 ++ strL "-" ++ padStart2 (natStr c.2.1)

def localYearMonth (tz : Int) (epochSec : Nat) : Int × Nat :=
  let c := civilFromDays (Int.fdiv ((epochSec : Int) + tz) 86400)
  (c.1, c.2.1)

/-- Month key of a (year*12 + month0) count, as produced by
`new Date(year, month - i, 1)` month arithmetic. -/
def monthKeyOfYM (ym : Int) : Str :=
  let y := Int.fdiv ym 12
  let m0 := (ym - 12 * y).toNat
  intStr y ++ strL "-" ++ padStart2 (natStr (m0 + 1))

structure MRec where
  revenue : Nat   -- cents (the source accumulates `amount_total / 100` dollars)
  demos : Nat
  market : Nat    -- whole dollars
  grassroots : Nat -- whole dollars
deriving DecidableEq

/-- The six seeded months (`i = 5 .. 0`), each zeroed. -/
def monthlySeed (tz : Int) (now : Nat) : List (Str × MRec) :=
  let ym := localYearMonth tz now
  let ym0 : Int := ym.1 * 12 + ((ym.2 - 1 : Nat) : Int)
  (List.range 6).map (fun j =>
    (monthKeyOfYM (ym0 - ((5 - j : Nat) : Int)),
     { revenue := 0, demos := 0, market := 0, grassroots := 0 }))

/-- `s.payment_status === 'paid' && s.metadata.customerName`. -/
def isPaidWithName (s : StripeSession) : Bool :=
  (s.payment_status == strL "paid") && truthy (alookup MetaKey.customerName s.metadata)

def paidOf (sessions : List StripeSession) : List StripeSession :=
  sessions.filter isPaidWithName

def notRefundedOf (sessions : List StripeSession) : List StripeSession :=
  (paidOf sessions).filter (fun s => !refundedOf s)

/-- One `notRefunded.forEach` step of the monthly aggregation: adds only
when the session's month key was seeded. -/
def monthlyStep (tz : Int) (mm : List (Str × MRec)) (s : StripeSession) : List (Str × MRec) :=
  let key := monthKeyOf tz s.created
  match alookup key mm with
  | some r =>
    let n := (extractBookings s.metadata).length
    aset key { revenue := r.revenue + s.amount_total, demos := r.demos + n,
               market := r.market + n * 20, grassroots := r.grassroots + n * 10 } mm
  | none => mm

/-- The `monthlyData` aggregate of `GET /api/admin/analytics`. -/
def monthlyOf (tz : Int) (now : Nat) (sessions : List StripeSession) : List (Str × MRec) :=
  (notRefundedOf sessions).foldl (monthlyStep tz) (monthlySeed tz now)

structure LRec where
  demos : Nat
  revenue : Nat  -- whole dollars (`count × 30`)
deriving DecidableEq

def locationStep (mm : List (Str × LRec)) (b : Slot) : List (Str × LRec) :=
  let loc := if b.location = [] then strL "Unknown" else b.location
  let prev := (alookup loc mm).getD { demos := 0, revenue := 0 }
  aset loc { demos := prev.demos + 1, revenue := prev.revenue + 30 } mm

/-- The `locationData` aggregate. -/
def locationsOf (sessions : List StripeSession) : List (Str × LRec) :=
  (notRefundedOf sessions).foldl
    (fun mm s => (extractBookings s.metadata).foldl locationStep mm) []

def timeSlotStep (mm : List (Str × Nat)) (b : Slot) : List (Str × Nat) :=
  aset b.time ((alookup b.time mm).getD 0 + 1) mm

/-- The `timeData` aggregate, pre-seeded with the two canonical slots. -/
def timeSlotsOf (sessions : List StripeSession) : List (Str × Nat) :=
  (notRefundedOf sessions).foldl
    (fun mm s => (extractBookings s.metadata).foldl timeSlotStep mm)
    [(strL "11:00 AM", 0), (strL "3:00 PM", 0)]

def isLeap (y : Int) : Bool :=
  (Int.emod y 4 == 0 && Int.emod y 100 != 0) || Int.emod y 400 == 0

def daysInMonth (y : Int) (m : Nat) : Nat :=
  if m = 2 then (if isLeap y then 29 else 28)
  else if m = 4 ∨ m = 6 ∨ m = 9 ∨ m = 11 then 30 else 31

/-- `new Date(dateString)` restricted to the ISO `YYYY-MM-DD` form the
booking widget stores, as days since the epoch (UTC midnight); `none`
models an `Invalid Date`. -/
def parseISODate (s : Str) : Option Int :=
  match s with
  | [y1, y2, y3, y4, s1, m1, m2, s2, d1, d2] =>
    if s1 = '-' ∧ s2 = '-' ∧ isDigitCh y1 ∧ isDigitCh y2 ∧ isDigitCh y3 ∧ isDigitCh y4
        ∧ isDigitCh m1 ∧ isDigitCh m2 ∧ isDigitCh d1 ∧ isDigitCh d2 then
      let y : Int := (digitsVal [y1, y2, y3, y4] : Nat)
      let m := digitsVal [m1, m2]
      let d := digitsVal [d1, d2]
      if 1 ≤ m ∧ m ≤ 12 ∧ 1 ≤ d ∧ d ≤ daysInMonth y m then some (daysFromCivil y m d)
      else none
    else none
  | _ => none

def dayNames : List Str :=
  [strL "Sun", strL "Mon", strL "Tue", strL "Wed", strL "Thu", strL "Fri", strL "Sat"]

def dayStep (mm : List (Str × Nat)) (b : Slot) : List (Str × Nat) :=
  if b.date = [] then mm
  else
    match parseISODate b.date with
    | some z =>
      let name := ((dayNames.get? (dayOfWeekOfDays z)).getD [])
      match alookup name mm with
      | some n => aset name (n + 1) mm
      | none => mm
    | none => mm

def daySeed : List (Str × Nat) :=
  [(strL "Mon", 0), (strL "Tue", 0), (strL "Wed", 0), (strL "Thu", 0),
   (strL "Fri", 0), (strL "Sat", 0), (strL "Sun", 0)]

/-- The `dayData` aggregate (bucketed from each slot's own date). -/
def daysOf (sessions : List StripeSession) : List (Str × Nat) :=
  (notRefundedOf sessions).foldl
    (fun mm s => (extractBookings s.metadata).foldl dayStep mm) daySeed

structure CustomerAcc where
  name : Str
  email : Str
  company : Str
  bookings : Nat
  totalSpent : Nat  -- cents (the source accumulates dollars)
  firstBooking : Nat
  lastBooking : Nat
  products : List Str  -- a `Set` in insertion order
deriving DecidableEq

def insertProduct (p : Str) (l : List Str) : List Str :=
  if l.contains p then l else l ++ [p]

/-- One `paid.forEach` step of the customer rollup. -/
def customersStep (mm : List (Str × CustomerAcc)) (s : StripeSession) :
    List (Str × CustomerAcc) :=
  let email := s.customer_email
  let refunded := refundedOf s
  let init : CustomerAcc :=
    { name := (alookup MetaKey.customerName s.metadata).getD []
      email := email
      company := (alookup MetaKey.company s.metadata).getD []
      bookings := 0, totalSpent := 0
      firstBooking := s.created, lastBooking := s.created, products := [] }
  let c0 := (alookup email mm).getD init
  let n := (extractBookings s.metadata).length
  let c1 : CustomerAcc :=
    { name := (alookup MetaKey.customerName s.metadata).getD []
      email := email
      company := (alookup MetaKey.company s.metadata).getD []
      bookings := c0.bookings + n
      totalSpent := if refunded then c0.totalSpent else c0.totalSpent + s.amount_total
      firstBooking := if s.created < c0.firstBooking then s.created else c0.firstBooking
      lastBooking := if c0.lastBooking < s.created then s.created else c0.lastBooking
      products := if truthy (alookup MetaKey.product s.metadata)
                  then insertProduct ((alookup MetaKey.product s.metadata).getD []) c0.products
                  else c0.products }
  aset email c1 mm

/-- The per-customer rollup of `GET /api/admin/analytics` (folded over all
paid sessions, refunded or not). -/
def customersOf (sessions : List StripeSession) : List (Str × CustomerAcc) :=
  (paidOf sessions).foldl customersStep []


/-! ### Concrete inputs used by witness theorems -/

def sampleSlot : Slot :=
  { date := strL "2025-03-14", time := strL "11:00 AM",
    location := strL "Kentfield", displayDate := strL "Fri, Mar 14" }

/-- A paid session whose first charge is refunded, carrying one booking. -/
def sampleRefundedSession : StripeSession :=
  { id := strL "cs_9", payment_status := strL "paid",
    customer_email := strL "ann@acme.co",
    amount_total := 3000, created := 1700000000,
    payment_intent := some (PIRef.obj
      { id := strL "pi_9",
        charges := some [{ refunded := true, amount_refunded := 3000 }] }),
    metadata := [(MetaKey.customerName, strL "Ann"), (MetaKey.company, strL "Acme"),
      (MetaKey.product, strL "Tea"), (MetaKey.phone, strL "415"),
      (MetaKey.bookings, serializeSlots [sampleSlot])] }

end Woodlands


namespace Woodlands

/-! ### Association-list lemmas -/

theorem alookup_aset_self {κ β : Type} [DecidableEq κ] (k : κ) (v : β) :
    ∀ m : List (κ × β), alookup k (aset k v m) = some v := by
  intro m
  induction m with
  | nil => simp [aset, alookup]
  | cons hd t ih =>
    obtain ⟨k2, v2⟩ := hd
    by_cases h : k2 = k
    · simp [aset, alookup, h]
    · simp [aset, alookup, h, ih]

theorem alookup_append {κ β : Type} [DecidableEq κ] (k : κ) :
    ∀ m1 m2 : List (κ × β),
      alookup k (m1 ++ m2) =
        (match alookup k m1 with
         | some v => some v
         | none => alookup k m2) := by
  intro m1 m2
  induction m1 with
  | nil => simp [alookup]
  | cons hd t ih =>
    obtain ⟨k2, v2⟩ := hd
    by_cases h : k2 = k
    · simp [alookup, h]
    · simp [alookup, h, ih]

/-! ### Decimal-string lemmas -/

theorem natDigitsAux_eq_digits : ∀ (fuel n : Nat), n ≤ fuel →
    natDigitsAux fuel n = Nat.digits 10 n := by
  intro fuel
  induction fuel with
  | zero =>
    intro n hn
    interval_cases n
    simp [natDigitsAux]
  | succ fuel ih =>
    intro n hn
    match n with
    | 0 => simp [natDigitsAux]
    | n + 1 =>
      rw [natDigitsAux, ih ((n + 1) / 10) ?_, Nat.digits_def' (by norm_num) (Nat.succ_pos n)]
      have := Nat.div_lt_self (Nat.succ_pos n) (show 1 < 10 by norm_num)
      omega

theorem natDigits_eq_digits (n : Nat) : natDigits n = Nat.digits 10 n :=
  natDigitsAux_eq_digits n n (Nat.le_refl n)

theorem isDigitCh_digitChar {d : Nat} (hd : d < 10) : isDigitCh (digitChar d) = true := by
  interval_cases d <;> decide

theorem digitChar_toNat {d : Nat} (hd : d < 10) : (digitChar d).toNat - 48 = d := by
  interval_cases d <;> decide

theorem natStr_all_digits (n : Nat) : ∀ c ∈ natStr n, isDigitCh c = true := by
  intro c hc
  unfold natStr at hc
  by_cases h : n = 0
  · simp [h] at hc
    simp [hc]
    decide
  · simp [h, natDigits_eq_digits] at hc
    obtain ⟨d, hd, rfl⟩ := hc
    exact isDigitCh_digitChar (Nat.digits_lt_base (by norm_num) hd)

theorem natStr_ne_nil (n : Nat) : natStr n ≠ [] := by
  unfold natStr
  by_cases h : n = 0
  · simp [h]
  · simp [h, natDigits_eq_digits, Nat.digits_ne_nil_iff_ne_zero.mpr h]

theorem digitsVal_rev_map (L : List Nat) (hd : ∀ d ∈ L, d < 10) :
    ∀ a : Nat, ((L.map digitChar).reverse).foldl (fun x c => x * 10 + (c.toNat - 48)) a
      = a * 10 ^ L.length + Nat.ofDigits 10 L := by
  induction L with
  | nil => intro a; simp [Nat.ofDigits]
  | cons d L ih =>
    intro a
    have hdlt : d < 10 := hd d (by simp)
    have hrest : ∀ x ∈ L, x < 10 := fun x hx => hd x (by simp [hx])
    simp only [List.map_cons, List.reverse_cons, List.foldl_append, List.foldl_cons,
      List.foldl_nil, ih hrest, Nat.ofDigits_cons, List.length_cons]
    rw [digitChar_toNat hdlt]
    ring

theorem digitsVal_natStr (n : Nat) : digitsVal (natStr n) = n := by
  unfold natStr digitsVal
  by_cases h : n = 0
  · simp [h]
  · simp only [h, if_false, natDigits_eq_digits]
    rw [digitsVal_rev_map _ (fun d hd => Nat.digits_lt_base (by norm_num) hd)]
    simp [Nat.ofDigits_digits]

theorem takeWhile_of_all {α : Type} (p : α → Bool) :
    ∀ l : List α, (∀ c ∈ l, p c = true) → l.takeWhile p = l := by
  intro l
  induction l with
  | nil => intro _; rfl
  | cons c t ih =>
    intro h
    rw [List.takeWhile_cons, h c (by simp)]
    simp [ih (fun x hx => h x (by simp [hx]))]

theorem digitsPrefixVal_natStr (n : Nat) : digitsPrefixVal (natStr n) = some n := by
  unfold digitsPrefixVal
  rw [takeWhile_of_all _ _ (natStr_all_digits n)]
  obtain ⟨c, t, e⟩ := List.exists_cons_of_ne_nil (natStr_ne_nil n)
  rw [e]
  simp only []
  rw [← e, digitsVal_natStr]

theorem jsParseIntVal_natStr (n : Nat) : jsParseIntVal (natStr n) = some (n : Int) := by
  obtain ⟨c, t, e⟩ := List.exists_cons_of_ne_nil (natStr_ne_nil n)
  have hc : isDigitCh c = true := natStr_all_digits n c (by rw [e]; simp)
  have hcm : c ≠ '-' := by intro h; rw [h] at hc; simp [isDigitCh] at hc
  have hcp : c ≠ '+' := by intro h; rw [h] at hc; simp [isDigitCh] at hc
  rw [e, jsParseIntVal, if_neg hcm, if_neg hcp, ← e, digitsPrefixVal_natStr]
  rfl

theorem jsIter_natStr (n : Nat) : jsIter (natStr n) = n := by
  rw [jsIter, jsParseIntVal_natStr]
  simp

end Woodlands


namespace Woodlands

/-! ### JSON round-trip lemmas -/

theorem hexVal_hexDigit {m : Nat} (hm : m < 16) : hexVal (hexDigit m) = some m := by
  interval_cases m <;> decide

theorem parseStringBody_u (c : Char) (h8 : c.toNat < 32) (r : Str) :
    parseStringBody ('\\' :: 'u' :: '0' :: '0' ::
        hexDigit (c.toNat / 16) :: hexDigit (c.toNat % 16) :: r)
      = consRes c (parseStringBody r) := by
  have hdiv : c.toNat / 16 < 16 := by omega
  have hmod : c.toNat % 16 < 16 := Nat.mod_lt _ (by omega)
  rw [parseStringBody.eq_def]
  simp only [reduceCtorEq, reduceIte, hexVal_hexDigit hdiv, hexVal_hexDigit hmod,
    show hexVal '0' = some 0 from by decide, Char.reduceEq]
  have hval : ((0 * 16 + 0) * 16 + c.toNat / 16) * 16 + c.toNat % 16 = c.toNat := by omega
  rw [hval, Char.ofNat_toNat]

theorem parseStringBody_escape (s : Str) :
    ∀ rest : Str, parseStringBody (escape s ++ '"' :: rest) = some (s, rest) := by
  induction s with
  | nil =>
    intro rest
    rw [escape]
    simp only [List.nil_append]
    rw [parseStringBody.eq_def]
    simp
  | cons c s ih =>
    intro rest
    rw [escape, List.append_assoc]
    by_cases h1 : c = '"'
    · subst h1
      rw [show escChar '"' = ['\\', '"'] from by decide]
      simp only [List.cons_append, List.nil_append]
      rw [parseStringBody.eq_def]
      simp [consRes, ih rest]
    by_cases h2 : c = '\\'
    · subst h2
      rw [show escChar '\\' = ['\\', '\\'] from by decide]
      simp only [List.cons_append, List.nil_append]
      rw [parseStringBody.eq_def]
      simp [consRes, ih rest]
    by_cases h3 : c = '\n'
    · subst h3
      rw [show escChar '\n' = ['\\', 'n'] from by decide]
      simp only [List.cons_append, List.nil_append]
      rw [parseStringBody.eq_def]
      simp [consRes, ih rest]
    by_cases h4 : c = '\r'
    · subst h4
      rw [show escChar '\r' = ['\\', 'r'] from by decide]
      simp only [List.cons_append, List.nil_append]
      rw [parseStringBody.eq_def]
      simp [consRes, ih rest]
    by_cases h5 : c = '\t'
    · subst h5
      rw [show escChar '\t' = ['\\', 't'] from by decide]
      simp only [List.cons_append, List.nil_append]
      rw [parseStringBody.eq_def]
      simp [consRes, ih rest]
    by_cases h6 : c = '\x08'
    · subst h6
      rw [show escChar '\x08' = ['\\', 'b'] from by decide]
      simp only [List.cons_append, List.nil_append]
      rw [parseStringBody.eq_def]
      simp [consRes, ih rest]
    by_cases h7 : c = '\x0c'
    · subst h7
      rw [show escChar '\x0c' = ['\\', 'f'] from by decide]
      simp only [List.cons_append, List.nil_append]
      rw [parseStringBody.eq_def]
      simp [consRes, ih rest]
    by_cases h8 : c.toNat < 32
    · rw [show escChar c = ['\\', 'u', '0', '0', hexDigit (c.toNat / 16),
          hexDigit (c.toNat % 16)] from by simp [escChar, h1, h2, h3, h4, h5, h6, h7, h8]]
      simp only [List.cons_append, List.nil_append]
      rw [parseStringBody_u c h8]
      simp [consRes, ih rest]
    · rw [show escChar c = [c] from by simp [escChar, h1, h2, h3, h4, h5, h6, h7, h8]]
      simp only [List.singleton_append]
      rw [parseStringBody.eq_def]
      simp [consRes, h1, h2, h8, ih rest]

theorem parseExact_append : ∀ (p r : Str), parseExact p (p ++ r) = some r := by
  intro p
  induction p with
  | nil => intro r; rfl
  | cons c ps ih => intro r; simp [parseExact, ih]

theorem parseSlotRecord_serialize (b : Slot) (rest : Str) :
    parseSlotRecord (serializeSlot b ++ rest) = some (b, rest) := by
  have e : serializeSlot b ++ rest =
      keyDate ++ (escape b.date ++ '"' :: (keyTime ++ (escape b.time ++ '"' ::
        (keyLocation ++ (escape b.location ++ '"' ::
          (keyDisplayDate ++ (escape b.displayDate ++ '"' :: '\x7d' :: rest))))))) := by
    simp [serializeSlot, List.append_assoc]
  rw [e, parseSlotRecord]
  simp [parseExact_append, parseStringBody_escape, parseExact]

theorem parseMoreSlots_tailSer : ∀ (xs : List Slot) (fuel : Nat) (rest : Str),
    xs.length ≤ fuel →
    parseMoreSlots fuel (tailSer xs ++ ']' :: rest) = some (xs, rest) := by
  intro xs
  induction xs with
  | nil =>
    intro fuel rest _
    simp only [tailSer, List.nil_append]
    cases fuel <;> (rw [parseMoreSlots.eq_def]; simp)
  | cons b xs ih =>
    intro fuel rest h
    cases fuel with
    | zero => simp at h
    | succ f =>
      have e : tailSer (b :: xs) ++ ']' :: rest
          = ',' :: (serializeSlot b ++ (tailSer xs ++ ']' :: rest)) := by
        simp [tailSer, List.append_assoc]
      rw [e, parseMoreSlots.eq_def]
      simp [parseSlotRecord_serialize, ih f rest (by simp at h; omega)]

theorem length_le_tailSer (xs : List Slot) : xs.length ≤ (tailSer xs).length := by
  induction xs with
  | nil => simp [tailSer]
  | cons b xs ih => simp [tailSer]; omega

theorem jsonParseSlots_serializeSlots (l : List Slot) :
    jsonParseSlots (serializeSlots l) = some l := by
  match l with
  | [] => rfl
  | x :: xs =>
    have e2 : serializeSlot x ++ (tailSer xs ++ [']'])
        = '\x7b' :: (keyDate.tail ++ (escape x.date ++ '"' :: (keyTime ++ (escape x.time ++ '"' ::
            (keyLocation ++ (escape x.location ++ '"' ::
              (keyDisplayDate ++ (escape x.displayDate ++ '"' :: '\x7d' ::
                (tailSer xs ++ [']'])))))))))  := by
      simp [serializeSlot, keyDate, List.append_assoc]
    have e : serializeSlots (x :: xs)
        = '[' :: '\x7b' :: (keyDate.tail ++ (escape x.date ++ '"' :: (keyTime ++ (escape x.time ++ '"' ::
            (keyLocation ++ (escape x.location ++ '"' ::
              (keyDisplayDate ++ (escape x.displayDate ++ '"' :: '\x7d' ::
                (tailSer xs ++ [']'])))))))))  := by
      rw [serializeSlots, List.append_assoc, e2]
    have estep : ∀ R : Str, jsonParseSlots ('[' :: '\x7b' :: R)
        = (match parseSlotRecord ('\x7b' :: R) with
           | some (b, r2) =>
             (match parseMoreSlots r2.length r2 with
              | some (l2, r3) => if r3 = [] then some (b :: l2) else none
              | none => none)
           | none => none) := fun _ => rfl
    rw [e, estep, ← e2, parseSlotRecord_serialize]
    simp only []
    rw [parseMoreSlots_tailSer xs _ [] ?_]
    · simp
    · have h1 := length_le_tailSer xs
      simp only [List.length_append, List.length_cons, List.length_nil]
      omega

end Woodlands


namespace Woodlands

/-! ### Chunk-layout lemmas -/

theorem alookup_chunkEntries_ge (blob : Str) :
    ∀ k i : Nat, k ≤ i → alookup (MetaKey.idx i) (chunkEntriesFrom blob k) = none := by
  intro k
  induction k with
  | zero => intro i _; rfl
  | succ k ih =>
    intro i h
    rw [chunkEntriesFrom, List.range_succ, List.map_append, alookup_append]
    have hl : alookup (MetaKey.idx i) (chunkEntriesFrom blob k) = none := ih i (by omega)
    rw [chunkEntriesFrom] at hl
    rw [hl]
    simp [alookup, show k ≠ i from by omega]

theorem alookup_chunkEntries_lt (blob : Str) :
    ∀ k i : Nat, i < k →
      alookup (MetaKey.idx i) (chunkEntriesFrom blob k)
        = some ((blob.drop (i * 500)).take 500) := by
  intro k
  induction k with
  | zero => intro i h; omega
  | succ k ih =>
    intro i h
    rw [chunkEntriesFrom, List.range_succ, List.map_append, alookup_append]
    by_cases hik : i < k
    · have hl := ih i hik
      rw [chunkEntriesFrom] at hl
      rw [hl]
    · have hi : i = k := by omega
      subst hi
      have hl := alookup_chunkEntries_ge blob i i (Nat.le_refl i)
      rw [chunkEntriesFrom] at hl
      rw [hl]
      simp [alookup]

theorem alookup_chunkEntries_ne (blob : Str) (key : MetaKey)
    (hkey : ∀ j : Nat, MetaKey.idx j ≠ key) :
    ∀ k, alookup key (chunkEntriesFrom blob k) = none := by
  intro k
  induction k with
  | zero => rfl
  | succ k ih =>
    rw [chunkEntriesFrom, List.range_succ, List.map_append, alookup_append]
    rw [chunkEntriesFrom] at ih
    rw [ih]
    simp [alookup, hkey k]

theorem bookingsEntries_le (blob : Str) (h : blob.length ≤ 500) :
    bookingsEntries blob = [(MetaKey.bookings, blob)] := by
  simp [bookingsEntries, h]

theorem alookup_bookings_chunked (blob : Str) (h : ¬ blob.length ≤ 500) :
    alookup MetaKey.bookings (bookingsEntries blob) = none := by
  rw [bookingsEntries, if_neg h, alookup_append,
    alookup_chunkEntries_ne blob MetaKey.bookings (fun j => by simp)]
  simp [alookup]

theorem alookup_chunks_chunked (blob : Str) (h : ¬ blob.length ≤ 500) :
    alookup MetaKey.chunks (bookingsEntries blob)
      = some (natStr (chunkCount blob.length)) := by
  rw [bookingsEntries, if_neg h, alookup_append,
    alookup_chunkEntries_ne blob MetaKey.chunks (fun j => by simp)]
  simp [alookup]

theorem alookup_idx_chunked (blob : Str) (h : ¬ blob.length ≤ 500) (i : Nat)
    (hi : i < chunkCount blob.length) :
    alookup (MetaKey.idx i) (bookingsEntries blob)
      = some ((blob.drop (i * 500)).take 500) := by
  rw [bookingsEntries, if_neg h, alookup_append, alookup_chunkEntries_lt blob _ i hi]

theorem alookup_checkout (cn co pr ph : Str) (cart : List Slot) (key : MetaKey)
    (hkey : key = MetaKey.bookings ∨ key = MetaKey.chunks ∨ ∃ i, key = MetaKey.idx i) :
    alookup key (checkoutMetadata cn co pr ph cart)
      = alookup key (bookingsEntries (serializeSlots cart)) := by
  rcases hkey with h | h | ⟨i, h⟩ <;> subst h <;>
    simp [checkoutMetadata, alookup]

theorem chunkCount_mul_ge (len : Nat) : len ≤ chunkCount len * 500 := by
  unfold chunkCount
  omega

theorem range_foldl_chunks (blob : Str) :
    ∀ k : Nat, (List.range k).foldl (fun acc i => acc ++ (blob.drop (i * 500)).take 500) []
      = blob.take (k * 500) := by
  intro k
  induction k with
  | zero => simp
  | succ k ih =>
    rw [List.range_succ, List.foldl_append, ih]
    simp only [List.foldl_cons, List.foldl_nil]
    rw [show (k + 1) * 500 = k * 500 + 500 from by ring, List.take_add]

theorem reassembleChunks_eq (m : Metadata) (g : Nat → Str) :
    ∀ k : Nat, (∀ i, i < k → alookup (MetaKey.idx i) m = some (g i)) →
      reassembleChunks m k = (List.range k).foldl (fun acc i => acc ++ g i) [] := by
  intro k
  induction k with
  | zero => intro _; rfl
  | succ k ih =>
    intro h
    rw [reassembleChunks, List.range_succ, List.foldl_append, List.foldl_append]
    rw [reassembleChunks] at ih
    rw [ih (fun i hi => h i (by omega))]
    simp only [List.foldl_cons, List.foldl_nil]
    rw [h k (by omega)]
    rfl

theorem serializeSlots_shape (cart : List Slot) : ∃ t, serializeSlots cart = '[' :: t := by
  cases cart
  · exact ⟨[']'], rfl⟩
  · exact ⟨_, rfl⟩

theorem extractBookingsStr_checkout (cn co pr ph : Str) (cart : List Slot) :
    extractBookingsStr (checkoutMetadata cn co pr ph cart) = some (serializeSlots cart) := by
  by_cases hlen : (serializeSlots cart).length ≤ 500
  · have hb : alookup MetaKey.bookings (checkoutMetadata cn co pr ph cart)
        = some (serializeSlots cart) := by
      rw [alookup_checkout cn co pr ph cart MetaKey.bookings (Or.inl rfl),
        bookingsEntries_le _ hlen]
      simp [alookup]
    obtain ⟨tl, htl⟩ := serializeSlots_shape cart
    rw [extractBookingsStr, hb, htl]
    simp [truthy]
  · have hbn : alookup MetaKey.bookings (checkoutMetadata cn co pr ph cart) = none := by
      rw [alookup_checkout cn co pr ph cart MetaKey.bookings (Or.inl rfl),
        alookup_bookings_chunked _ hlen]
    have hcs : alookup MetaKey.chunks (checkoutMetadata cn co pr ph cart)
        = some (natStr (chunkCount (serializeSlots cart).length)) := by
      rw [alookup_checkout cn co pr ph cart MetaKey.chunks (Or.inr (Or.inl rfl)),
        alookup_chunks_chunked _ hlen]
    have hre : reassembleChunks (checkoutMetadata cn co pr ph cart)
        (chunkCount (serializeSlots cart).length) = serializeSlots cart := by
      rw [reassembleChunks_eq _ (fun i => ((serializeSlots cart).drop (i * 500)).take 500) _
        (fun i hi => by
          rw [alookup_checkout cn co pr ph cart (MetaKey.idx i) (Or.inr (Or.inr ⟨i, rfl⟩)),
            alookup_idx_chunked _ hlen i hi]),
        range_foldl_chunks]
      exact List.take_of_length_le (chunkCount_mul_ge _)
    obtain ⟨c, t, hct⟩ := List.exists_cons_of_ne_nil
      (natStr_ne_nil (chunkCount (serializeSlots cart).length))
    rw [extractBookingsStr, hbn, hcs, hct]
    simp only [truthy, Bool.false_eq_true, if_false, if_true, Option.getD_some]
    rw [← hct, jsIter_natStr, hre]

end Woodlands


namespace Woodlands

/-! ### Analytics lemmas -/

theorem paidOf_append_paid (l : List StripeSession) (s : StripeSession)
    (hp : isPaidWithName s = true) :
    paidOf (l ++ [s]) = paidOf l ++ [s] := by
  rw [paidOf, paidOf, List.filter_append]
  simp [List.filter, hp]

theorem notRefundedOf_append_refunded (l : List StripeSession) (s : StripeSession)
    (hp : isPaidWithName s = true) (hr : refundedOf s = true) :
    notRefundedOf (l ++ [s]) = notRefundedOf l := by
  rw [notRefundedOf, notRefundedOf, paidOf_append_paid l s hp, List.filter_append]
  simp [List.filter, hr]

/-! ### Decimal length lemma (for the calendar-export claim) -/

theorem natStr_len_ge2 {n : Nat} (h : 10 ≤ n) : 2 ≤ (natStr n).length := by
  rw [natStr, if_neg (by omega), natDigits_eq_digits]
  rw [Nat.digits_def' (show 1 < 10 from by norm_num) (show 0 < n from by omega)]
  have hne : Nat.digits 10 (n / 10) ≠ [] :=
    Nat.digits_ne_nil_iff_ne_zero.mpr (by omega)
  cases e : Nat.digits 10 (n / 10) with
  | nil => exact absurd e hne
  | cons d ds => simp [e]

end Woodlands


namespace Woodlands

set_option maxRecDepth 100000

/-! ### Claim theorems -/

/-- C1: For every cart of slots (each slot reduced to the four fields date,
time, location, displayDate — so in particular any cart of 0 to 50 slots),
decoding the metadata mapping produced by the checkout encoder with
`extractBookings` reproduces the original slot list exactly.  This covers
both the single-key regime (serialized blob of at most 500 characters,
stored under `bookings`) and the chunked regime (blob over 500 characters,
split across indexed `bookings_<i>` keys with the `bookings_chunks`
sentinel), and the empty cart is the `cart = []` instance, which round-trips
to the empty sequence. -/
theorem claim1_checkout_roundtrip :
    ∀ (cn co pr ph : Str) (cart : List Slot),
      extractBookings (checkoutMetadata cn co pr ph cart) = cart := by
  intro cn co pr ph cart
  have h := extractBookingsStr_checkout cn co pr ph cart
  obtain ⟨tl, htl⟩ := serializeSlots_shape cart
  rw [extractBookings, h]
  simp only []
  rw [htl, if_neg (by simp), ← htl, jsonParseSlots_serializeSlots]
  rfl

theorem lt_chunkCount_iff {len j : Nat} :
    j < chunkCount len ↔ j * 500 < len := by
  unfold chunkCount
  omega

/-- C2: For every serialized booking blob, the encoder stores a blob of
length at most 500 under the single key `bookings` (no chunk keys, no
sentinel); for any longer blob it stores consecutive chunks of at most 500
characters under `bookings_0`, `bookings_1`, … and sets `bookings_chunks`
to the decimal string of `ceil(length/500)`.  In particular a 500-character
blob uses the single-key form and a 501-character blob uses the chunked
form with `bookings_chunks = "2"`. -/
theorem claim2_chunk_layout :
    (∀ blob : Str, blob.length ≤ 500 →
       alookup MetaKey.bookings (bookingsEntries blob) = some blob ∧
       alookup MetaKey.chunks (bookingsEntries blob) = none ∧
       ∀ i, alookup (MetaKey.idx i) (bookingsEntries blob) = none) ∧
    (∀ blob : Str, 500 < blob.length →
       alookup MetaKey.bookings (bookingsEntries blob) = none ∧
       alookup MetaKey.chunks (bookingsEntries blob)
         = some (natStr ((blob.length + 499) / 500)) ∧
       (∀ j, j * 500 < blob.length →
          alookup (MetaKey.idx j) (bookingsEntries blob)
            = some ((blob.drop (j * 500)).take 500) ∧
          ((blob.drop (j * 500)).take 500).length ≤ 500) ∧
       (∀ j, blob.length ≤ j * 500 →
          alookup (MetaKey.idx j) (bookingsEntries blob) = none)) ∧
    alookup MetaKey.bookings (bookingsEntries (List.replicate 500 'a'))
      = some (List.replicate 500 'a') ∧
    alookup MetaKey.chunks (bookingsEntries (List.replicate 500 'a')) = none ∧
    alookup MetaKey.bookings (bookingsEntries (List.replicate 501 'a')) = none ∧
    alookup MetaKey.chunks (bookingsEntries (List.replicate 501 'a')) = some ['2'] := by
  refine ⟨?_, ?_, by decide, by decide, by decide, by decide⟩
  · intro blob h
    rw [bookingsEntries_le blob h]
    refine ⟨by simp [alookup], by simp [alookup], fun i => by simp [alookup]⟩
  · intro blob h
    have hn : ¬ blob.length ≤ 500 := by omega
    refine ⟨alookup_bookings_chunked blob hn, alookup_chunks_chunked blob hn, ?_, ?_⟩
    · intro j hj
      refine ⟨alookup_idx_chunked blob hn j (lt_chunkCount_iff.mpr hj), ?_⟩
      simp [List.length_take]
    · intro j hj
      rw [bookingsEntries, if_neg hn, alookup_append,
        alookup_chunkEntries_ge blob _ j (by unfold chunkCount; omega)]
      simp [alookup]

/-- Witness for C2 at concrete blobs: a 1-character blob takes the single-key
form, and the 501-character blob has chunk 0 of exactly 500 characters and a
missing `bookings_2` key. -/
theorem claim2_chunk_layout_witness :
    ((strL "x").length ≤ 500 ∧
      alookup MetaKey.bookings (bookingsEntries (strL "x")) = some (strL "x")) ∧
    (500 < (List.replicate 501 'b').length ∧
      (0 : Nat) * 500 < (List.replicate 501 'b').length ∧
      alookup (MetaKey.idx 0) (bookingsEntries (List.replicate 501 'b'))
        = some (((List.replicate 501 'b').drop (0 * 500)).take 500) ∧
      (List.replicate 501 'b').length ≤ 2 * 500 ∧
      alookup (MetaKey.idx 2) (bookingsEntries (List.replicate 501 'b')) = none) :=
  ⟨⟨by decide, (claim2_chunk_layout.1 (strL "x") (by decide)).1⟩,
   ⟨by decide, by decide,
    ((claim2_chunk_layout.2.1 (List.replicate 501 'b') (by decide)).2.2.1 0 (by decide)).1,
    by decide,
    (claim2_chunk_layout.2.1 (List.replicate 501 'b') (by decide)).2.2.2 2 (by decide)⟩⟩

/-- C3 (code bug): with the admin secret unconfigured, `POST /api/admin/auth`
with no password in the body answers success — `undefined === undefined` —
instead of the claimed HTTP 500; any supplied password gets 401, also not
500.  The `adminAuth` middleware, by contrast, does answer HTTP 500. -/
theorem claim3_unconfigured_secret_behavior :
    adminAuthRoute none none = AuthResp.ok ∧
    (∀ pw : Str, adminAuthRoute none (some pw) = AuthResp.unauthorized) ∧
    (∀ password : Option Str, adminAuth none password = some AuthResp.serverError) := by
  refine ⟨by decide, fun pw => ?_, fun password => ?_⟩
  · rw [adminAuthRoute, if_neg (by simp)]
  · simp [adminAuth, truthy]

/-- C4: for every retrieved session whose `payment_status` is not `paid`,
verify-payment answers HTTP 400 `Payment not completed` and invokes no
confirmation-email send on that path. -/
theorem claim4_verify_gating :
    ∀ s : StripeSession, s.payment_status ≠ strL "paid" →
      verifyPayment s = (VerifyResp.notCompleted, 0) := by
  intro s h
  rw [verifyPayment, if_neg h]

/-- Witness for C4 at a concrete unpaid session. -/
theorem claim4_verify_gating_witness :
    ({ id := strL "cs_1", payment_status := strL "unpaid",
        customer_email := strL "e@x.co", amount_total := 3000, created := 0,
        payment_intent := none, metadata := [] } : StripeSession).payment_status
        ≠ strL "paid" ∧
    verifyPayment { id := strL "cs_1", payment_status := strL "unpaid",
                    customer_email := strL "e@x.co", amount_total := 3000, created := 0,
                    payment_intent := none, metadata := [] }
      = (VerifyResp.notCompleted, 0) :=
  ⟨by decide, claim4_verify_gating _ (by decide)⟩

/-- C6 counterexample: with the booking payload missing entirely (neither
`bookings` nor `bookings_chunks` present), the verify-payment decoder does
not yield an empty slot sequence: it reassembles the empty string,
`JSON.parse('')` throws, and the route answers HTTP 500 — refuting the
claim for that decoder. -/
theorem claim6_counterexample :
    verifyBookingsStr ([] : Metadata) = [] ∧
    jsonParseSlots (verifyBookingsStr ([] : Metadata)) = none ∧
    verifyPayment { id := strL "cs_1", payment_status := strL "paid",
                    customer_email := strL "e@x.co", amount_total := 3000, created := 0,
                    payment_intent := none, metadata := [] }
      = (VerifyResp.serverError, 0) :=
  ⟨by decide, by decide, by decide⟩

/-- C6 (amended): `extractBookings` yields the empty slot sequence when the
payload is missing entirely or malformed (unparseable); the verify-payment
inline decoder instead throws on such payloads, surfacing HTTP 500 with no
email sent. -/
theorem claim6_amended_decode_defaults :
    (∀ m : Metadata, alookup MetaKey.bookings m = none →
        alookup MetaKey.chunks m = none → extractBookings m = []) ∧
    (∀ (m : Metadata) (s : Str), extractBookingsStr m = some s →
        jsonParseSlots s = none → extractBookings m = []) ∧
    (∀ sess : StripeSession, sess.payment_status = strL "paid" →
        jsonParseSlots (verifyBookingsStr sess.metadata) = none →
        verifyPayment sess = (VerifyResp.serverError, 0)) := by
  refine ⟨?_, ?_, ?_⟩
  · intro m h1 h2
    rw [extractBookings, extractBookingsStr, h1, h2]
    simp [truthy]
  · intro m s h1 h2
    rw [extractBookings, h1]
    simp only []
    cases s with
    | nil => simp
    | cons c t => simp [h2]
  · intro sess hpaid hparse
    rw [verifyPayment, if_pos hpaid, hparse]

/-- Witness for the amended C6: a metadata object with no booking keys, one
with an unparseable `bookings` value, and a paid session with empty
metadata. -/
theorem claim6_amended_decode_defaults_witness :
    extractBookings [(MetaKey.phone, strL "415")] = [] ∧
    extractBookings [(MetaKey.bookings, strL "garbage")] = [] ∧
    verifyPayment { id := strL "cs_1", payment_status := strL "paid",
                    customer_email := strL "e@x.co", amount_total := 3000, created := 0,
                    payment_intent := none, metadata := [] }
      = (VerifyResp.serverError, 0) :=
  ⟨claim6_amended_decode_defaults.1 _ (by decide) (by decide),
   claim6_amended_decode_defaults.2.1 _ (strL "garbage") (by decide) (by decide),
   claim6_amended_decode_defaults.2.2 _ (by decide) (by decide)⟩

/-- C9: whenever the singular `bookings` key is present with a nonempty
value, both decoders select exactly that value as the payload — the chunked
form (`bookings_chunks` and indexed keys) is ignored entirely — and
`extractBookings` is the parse of that value alone. -/
theorem claim9_bookings_precedence :
    ∀ (m : Metadata) (s : Str), alookup MetaKey.bookings m = some s → s ≠ [] →
      extractBookingsStr m = some s ∧
      verifyBookingsStr m = s ∧
      extractBookings m = (jsonParseSlots s).getD [] := by
  intro m s hb hne
  obtain ⟨c, t, hct⟩ := List.exists_cons_of_ne_nil hne
  have htr : truthy (alookup MetaKey.bookings m) = true := by
    rw [hb, hct]
    rfl
  have h1 : extractBookingsStr m = some s := by
    rw [extractBookingsStr, htr, if_pos rfl, hb]
  refine ⟨h1, ?_, ?_⟩
  · rw [verifyBookingsStr, htr, if_pos rfl, hb]
    rfl
  · rw [extractBookings, h1]
    simp only []
    rw [if_neg hne]

/-- Witness for C9: both forms present; the decoders use the singular value
`"[]"` and ignore the chunk keys. -/
theorem claim9_bookings_precedence_witness :
    alookup MetaKey.bookings
        [(MetaKey.bookings, strL "[]"), (MetaKey.chunks, strL "1"),
         (MetaKey.idx 0, strL "x")] = some (strL "[]") ∧
    strL "[]" ≠ [] ∧
    (extractBookingsStr
        [(MetaKey.bookings, strL "[]"), (MetaKey.chunks, strL "1"),
         (MetaKey.idx 0, strL "x")] = some (strL "[]") ∧
     verifyBookingsStr
        [(MetaKey.bookings, strL "[]"), (MetaKey.chunks, strL "1"),
         (MetaKey.idx 0, strL "x")] = strL "[]" ∧
     extractBookings
        [(MetaKey.bookings, strL "[]"), (MetaKey.chunks, strL "1"),
         (MetaKey.idx 0, strL "x")] = (jsonParseSlots (strL "[]")).getD []) :=
  ⟨by decide, by decide, claim9_bookings_precedence _ _ (by decide) (by decide)⟩

end Woodlands


namespace Woodlands

set_option maxRecDepth 400000

/-- C5: a paid-but-refunded session contributes its decoded slot count to the
per-customer cumulative `bookings` count but nothing to that customer's
`totalSpent`, and nothing to the monthly, per-location, time-slot or
day-of-week aggregates (which fold only over paid-and-not-refunded
sessions). -/
theorem claim5_refund_asymmetry (tz : Int) (now : Nat)
    (l : List StripeSession) (s : StripeSession)
    (hp : isPaidWithName s = true) (hr : refundedOf s = true) :
    monthlyOf tz now (l ++ [s]) = monthlyOf tz now l ∧
    locationsOf (l ++ [s]) = locationsOf l ∧
    timeSlotsOf (l ++ [s]) = timeSlotsOf l ∧
    daysOf (l ++ [s]) = daysOf l ∧
    ∃ c : CustomerAcc,
      alookup s.customer_email (customersOf (l ++ [s])) = some c ∧
      c.bookings = (match alookup s.customer_email (customersOf l) with
                    | some c0 => c0.bookings
                    | none => 0) + (extractBookings s.metadata).length ∧
      c.totalSpent = (match alookup s.customer_email (customersOf l) with
                      | some c0 => c0.totalSpent
                      | none => 0) := by
  have hnr := notRefundedOf_append_refunded l s hp hr
  refine ⟨by rw [monthlyOf, monthlyOf, hnr], by rw [locationsOf, locationsOf, hnr],
    by rw [timeSlotsOf, timeSlotsOf, hnr], by rw [daysOf, daysOf, hnr], ?_⟩
  simp only [customersOf, paidOf_append_paid l s hp, List.foldl_append,
    List.foldl_cons, List.foldl_nil, customersStep]
  refine ⟨_, alookup_aset_self _ _ _, ?_, ?_⟩
  · cases halo : alookup s.customer_email ((paidOf l).foldl customersStep []) <;>
      simp [halo]
  · cases halo : alookup s.customer_email ((paidOf l).foldl customersStep []) <;>
      simp [halo, hr]

/-- Witness for C5 at a concrete refunded session appended to the empty
fetch. -/
theorem claim5_refund_asymmetry_witness :
    isPaidWithName sampleRefundedSession = true ∧
    refundedOf sampleRefundedSession = true ∧
    (monthlyOf 0 1700000000 ([] ++ [sampleRefundedSession]) = monthlyOf 0 1700000000 [] ∧
     locationsOf ([] ++ [sampleRefundedSession]) = locationsOf [] ∧
     timeSlotsOf ([] ++ [sampleRefundedSession]) = timeSlotsOf [] ∧
     daysOf ([] ++ [sampleRefundedSession]) = daysOf [] ∧
     ∃ c : CustomerAcc,
       alookup sampleRefundedSession.customer_email
           (customersOf ([] ++ [sampleRefundedSession])) = some c ∧
       c.bookings = (match alookup sampleRefundedSession.customer_email (customersOf []) with
                     | some c0 => c0.bookings
                     | none => 0)
           + (extractBookings sampleRefundedSession.metadata).length ∧
       c.totalSpent = (match alookup sampleRefundedSession.customer_email (customersOf []) with
                       | some c0 => c0.totalSpent
                       | none => 0)) :=
  ⟨by decide, by decide,
   claim5_refund_asymmetry 0 1700000000 [] sampleRefundedSession (by decide) (by decide)⟩

/-- C7: for every session whose first charge is already marked refunded, the
refund route answers HTTP 400 `already refunded` and makes no second
`refunds.create` call. -/
theorem claim7_refund_idempotent :
    ∀ (s : StripeSession) (pi : PaymentIntentObj) (cl : List Charge) (c : Charge),
      s.payment_intent = some (PIRef.obj pi) → pi.charges = some cl →
      cl.head? = some c → c.refunded = true →
      refundRoute s = (RefundResp.alreadyRefunded, 0) := by
  intro s pi cl c h1 h2 h3 h4
  simp [refundRoute, h1, chargesOf, firstChargeRefunded, h2, h3, h4]

/-- Witness for C7 at a concrete already-refunded session. -/
theorem claim7_refund_idempotent_witness :
    sampleRefundedSession.payment_intent = some (PIRef.obj
      { id := strL "pi_9",
        charges := some [{ refunded := true, amount_refunded := 3000 }] }) ∧
    ({ id := strL "pi_9",
       charges := some [{ refunded := true, amount_refunded := 3000 }]
       : PaymentIntentObj }).charges
      = some [{ refunded := true, amount_refunded := 3000 }] ∧
    ([{ refunded := true, amount_refunded := 3000 }] : List Charge).head?
      = some { refunded := true, amount_refunded := 3000 } ∧
    ({ refunded := true, amount_refunded := 3000 } : Charge).refunded = true ∧
    refundRoute sampleRefundedSession = (RefundResp.alreadyRefunded, 0) :=
  ⟨by decide, by decide, by decide, by decide,
   claim7_refund_idempotent sampleRefundedSession
     { id := strL "pi_9",
       charges := some [{ refunded := true, amount_refunded := 3000 }] }
     [{ refunded := true, amount_refunded := 3000 }]
     { refunded := true, amount_refunded := 3000 }
     (by decide) (by decide) (by decide) (by decide)⟩

/-- C8: every slot in a checkout cart becomes exactly one line item with unit
amount 3000 minor units and quantity 1 (no aggregation of duplicates), so
the total charged is `N × 3000` minor units for an N-slot cart, regardless
of each slot's location or date. -/
theorem claim8_pricing :
    ∀ cart : List Slot,
      (lineItems cart).length = cart.length ∧
      (lineItems cart).all (fun li => li.unit_amount == 3000 && li.quantity == 1) = true ∧
      totalCharged cart = cart.length * 3000 := by
  intro cart
  refine ⟨by simp [lineItems], by simp [lineItems, List.all_eq_true], ?_⟩
  induction cart with
  | nil => rfl
  | cons x xs ih =>
    simp [totalCharged, lineItems] at ih ⊢
    omega

/-- C10: the calendar export renders DTSTART from the parsed 24-hour start
hour and DTEND from that hour plus 3 with no modulo-24 wraparound, as
zero-padded decimal strings: `11:00 AM` gives hours `11`/`14`, `3:00 PM`
gives `15`/`18`, `9:00 PM` gives `21`/`24`; in general any start hour above
20 renders a DTEND hour field that is the decimal numeral of a value of 24
or more — an out-of-range hour in the emitted document. -/
theorem claim10_ics_hours :
    icsStartHour (strL "11:00 AM") = strL "11" ∧
    icsEndHour (strL "11:00 AM") = strL "14" ∧
    icsStartHour (strL "3:00 PM") = strL "15" ∧
    icsEndHour (strL "3:00 PM") = strL "18" ∧
    icsStartHour (strL "9:00 PM") = strL "21" ∧
    icsEndHour (strL "9:00 PM") = strL "24" ∧
    ∀ (t : Str) (h : Int), hours24 t = some h → 20 < h →
      icsEndHour t = intStr (h + 3) ∧ 24 ≤ h + 3 := by
  refine ⟨by decide, by decide, by decide, by decide, by decide, by decide, ?_⟩
  intro t h hh h20
  refine ⟨?_, by omega⟩
  rw [icsEndHour, hh]
  simp only []
  have hi : intStr (h + 3) = natStr (h + 3).toNat := by
    rw [intStr, if_neg (by omega)]
  have hlen : ¬ (intStr (h + 3)).length < 2 := by
    rw [hi]
    have := natStr_len_ge2 (show 10 ≤ (h + 3).toNat from by omega)
    omega
  rw [padStart2, if_neg hlen]

/-- Witness for C10's general clause at `9:00 PM` (start hour 21). -/
theorem claim10_ics_hours_witness :
    hours24 (strL "9:00 PM") = some 21 ∧ (20 : Int) < 21 ∧
    (icsEndHour (strL "9:00 PM") = intStr (21 + 3) ∧ (24 : Int) ≤ 21 + 3) :=
  ⟨by decide, by decide,
   claim10_ics_hours.2.2.2.2.2.2 (strL "9:00 PM") 21 (by decide) (by decide)⟩

end Woodlands

-- Executable checks of the embedding on concrete inputs.
namespace Woodlands
set_option maxRecDepth 100000
example : jsonParseSlots (serializeSlots []) = some [] := by decide
example :
    jsonParseSlots (serializeSlots
      [{ date := strL "2025-03-14", time := strL "11:00 AM",
         location := strL "A\"B\\C", displayDate := strL "Fri, Mar 14" }]) =
    some [{ date := strL "2025-03-14", time := strL "11:00 AM",
            location := strL "A\"B\\C", displayDate := strL "Fri, Mar 14" }] := by decide
example :
    extractBookings (checkoutMetadata (strL "n") (strL "c") (strL "p") (strL "ph")
      [{ date := strL "2025-03-14", time := strL "11:00 AM",
         location := List.replicate 600 'x', displayDate := strL "Fri" },
       { date := strL "2025-03-15", time := strL "3:00 PM",
         location := strL "Kentfield", displayDate := strL "Sat" }]) =
      [{ date := strL "2025-03-14", time := strL "11:00 AM",
         location := List.replicate 600 'x', displayDate := strL "Fri" },
       { date := strL "2025-03-15", time := strL "3:00 PM",
         location := strL "Kentfield", displayDate := strL "Sat" }] := by decide
example : extractBookings [(MetaKey.bookings, strL "garbage")] = [] := by decide
example : extractBookings [] = [] := by decide
example :
    verifyPayment { id := strL "s", payment_status := strL "paid",
                    customer_email := strL "e", amount_total := 3000, created := 0,
                    payment_intent := none, metadata := [] } =
      (VerifyResp.serverError, 0) := by decide
example : adminAuthRoute none none = AuthResp.ok := by decide
example : hours24 (strL "9:00 PM") = some 21 := by decide
example : icsEndHour (strL "9:00 PM") = strL "24" := by decide
example : icsStartHour (strL "11:00 AM") = strL "11" := by decide
example : icsEndHour (strL "11:00 AM") = strL "14" := by decide
example : icsStartHour (strL "3:00 PM") = strL "15" := by decide
example : icsEndHour (strL "3:00 PM") = strL "18" := by decide
example : monthKeyOf 0 1700000000 = strL "2023-11" := by decide
example : (parseISODate (strL "2025-03-14")).map dayOfWeekOfDays = some 5 := by decide
example : natStr 2 = ['2'] := by decide
example : jsIter (natStr 3) = 3 := by decide
example : chunkCount 501 = 2 := by decide
end Woodlands
